import Mathlib

/-!
Shallow embedding of the receipt-processing service (`api.go`) and proofs
about its validation, points-scoring and storage behaviour.

Modelling conventions:

* Go `float64` values are modelled as exact rationals (`ℚ`).  Decimal
  numeral strings parse to their exact rational value; the constants
  `0.25`, `0.2` and `1e-9` appearing in the Go source are modelled as the
  exact rationals `1/4`, `1/5` and `1/10^9`.
* Go `int` is modelled as `ℤ` (the point totals involved never approach
  the 64-bit bound for receipts of realistic size).
* `strconv.ParseFloat` is modelled on its decimal fragment: an optional
  sign, decimal digits with an optional fractional part, and an optional
  decimal exponent.  The exotic inputs Go additionally accepts
  (hexadecimal floats, `inf`/`nan`, digit-separating underscores) are
  outside the model and treated as parse failures.
* `time.Parse` is modelled for exactly the two layouts the program uses,
  `"2006-01-02"` and `"15:04"`, reproducing Go's reference-layout
  semantics: fixed two-digit month, day and minute, fixed four-digit
  year, but a one-or-two-digit hour (Go's `stdHour` is never
  fixed-width), plus Go's range checks (month 1..12, day 1..days-in-month
  with leap years, hour 0..23, minute 0..59, no leftover input).
* On a parse failure the Go code discards the error and keeps the zero
  value (`0.0` for floats, the zero `time.Time`, whose day is 1 and hour
  is 0); the embedding reproduces this with `Option.getD` / default
  branches.
* `strings.TrimSpace` trims Go's `unicode.IsSpace` characters from both
  ends; `len` on a Go string is its UTF-8 byte length, modelled by
  summing `Char.utf8Size`.
-/

/-- Decimal value of a digit character. -/
def charVal (c : Char) : Nat := c.toNat - 48

/-- Value of a run of decimal digit characters, most significant first. -/
def digitsToNat (cs : List Char) : Nat :=
  cs.foldl (fun n c => 10 * n + charVal c) 0

/-- Model of `strconv.ParseFloat` on its decimal fragment (see module
doc-string): optional sign, digits with optional dot, optional decimal
exponent; at least one mantissa digit; no leftover characters. -/
def parseFloat (s : String) : Option ℚ :=
  let cs := s.data
  let signAndRest : ℚ × List Char :=
    match cs with
    | '+' :: rest => (1, rest)
    | '-' :: rest => (-1, rest)
    | _ => (1, cs)
  let sign := signAndRest.1
  let cs1 := signAndRest.2
  let ip := cs1.takeWhile Char.isDigit
  let cs2 := cs1.dropWhile Char.isDigit
  let fracAndRest : List Char × List Char :=
    match cs2 with
    | '.' :: rest => (rest.takeWhile Char.isDigit, rest.dropWhile Char.isDigit)
    | _ => ([], cs2)
  let fp := fracAndRest.1
  let cs3 := fracAndRest.2
  if ip.isEmpty && fp.isEmpty then none
  else
    let mant : ℚ := (digitsToNat ip : ℚ) + (digitsToNat fp : ℚ) / (10 : ℚ) ^ fp.length
    match cs3 with
    | [] => some (sign * mant)
    | e :: rest =>
      if e == 'e' || e == 'E' then
        let esignAndRest : Bool × List Char :=
          match rest with
          | '+' :: r => (false, r)
          | '-' :: r => (true, r)
          | _ => (false, rest)
        let eneg := esignAndRest.1
        let ed := esignAndRest.2.takeWhile Char.isDigit
        let rest2 := esignAndRest.2.dropWhile Char.isDigit
        if ed.isEmpty || !rest2.isEmpty then none
        else
          let scale : ℚ := (10 : ℚ) ^ digitsToNat ed
          some (sign * mant * (if eneg then 1 / scale else scale))
      else none

/-- Model of `almostEqual` from `api.go`: absolute difference at most the
tolerance `1e-9` (modelled as the exact rational `1/10^9`). -/
def almostEqual (a b : ℚ) : Bool :=
  decide (|a - b| ≤ 1 / 1000000000)

/-- Go's conversion `int(x)` of a float to an integer: truncation toward
zero. -/
def ratTrunc (q : ℚ) : ℤ :=
  if 0 ≤ q then ⌊q⌋ else ⌈q⌉

/-- Model of `math.Mod x y`: the exact floating-point remainder, which for
finite arguments equals `x - trunc(x/y) * y` computed exactly. -/
def fmod (x y : ℚ) : ℚ :=
  x - (ratTrunc (x / y) : ℚ) * y

/-- Parsed calendar date, as produced by `time.Parse "2006-01-02"`. -/
structure GoDate where
  year : Nat
  month : Nat
  day : Nat
deriving DecidableEq

/-- Parsed time of day, as produced by `time.Parse "15:04"`. -/
structure GoTime where
  hour : Nat
  minute : Nat
deriving DecidableEq

/-- Go's leap-year test (`isLeap` in package `time`). -/
def isLeap (year : Nat) : Bool :=
  year % 4 == 0 && (year % 100 != 0 || year % 400 == 0)

/-- Go's `daysIn`: the number of days of a month, honouring leap years. -/
def daysIn (year month : Nat) : Nat :=
  if month == 2 then (if isLeap year then 29 else 28)
  else if month == 4 || month == 6 || month == 9 || month == 11 then 30
  else 31

/-- Character-list body of `parseDate`: exactly four year digits, a
dash, exactly two month digits, a dash, exactly two day digits, nothing
left over, month in 1..12 and day in 1..`daysIn`. -/
def parseDateChars : List Char → Option GoDate
  | [y1, y2, y3, y4, c1, m1, m2, c2, d1, d2] =>
    if y1.isDigit && y2.isDigit && y3.isDigit && y4.isDigit && (c1 == '-') &&
        m1.isDigit && m2.isDigit && (c2 == '-') && d1.isDigit && d2.isDigit then
      let year := 1000 * charVal y1 + 100 * charVal y2 + 10 * charVal y3 + charVal y4
      let month := 10 * charVal m1 + charVal m2
      let day := 10 * charVal d1 + charVal d2
      if 1 ≤ month ∧ month ≤ 12 ∧ 1 ≤ day ∧ day ≤ daysIn year month then
        some ⟨year, month, day⟩
      else none
    else none
  | _ => none

/-- Model of `time.Parse "2006-01-02" s`. -/
def parseDate (s : String) : Option GoDate :=
  parseDateChars s.data

/-- Character-list body of `parseTime`.  Go's hour field `15` is parsed
by `getnum` in non-fixed mode, so it accepts either one or two digits;
the minute field `04` is fixed two-digit.  Hour must be 0..23, minute
0..59, and no characters may be left over. -/
def parseTimeChars : List Char → Option GoTime
  | [h1, c, m1, m2] =>
    if h1.isDigit && (c == ':') && m1.isDigit && m2.isDigit then
      let hour := charVal h1
      let minute := 10 * charVal m1 + charVal m2
      if hour ≤ 23 ∧ minute ≤ 59 then some ⟨hour, minute⟩ else none
    else none
  | [h1, h2, c, m1, m2] =>
    if h1.isDigit && h2.isDigit && (c == ':') && m1.isDigit && m2.isDigit then
      let hour := 10 * charVal h1 + charVal h2
      let minute := 10 * charVal m1 + charVal m2
      if hour ≤ 23 ∧ minute ≤ 59 then some ⟨hour, minute⟩ else none
    else none
  | _ => none

/-- Model of `time.Parse "15:04" s`. -/
def parseTime (s : String) : Option GoTime :=
  parseTimeChars s.data

/-- Go's `unicode.IsSpace`. -/
def goIsSpace (c : Char) : Bool :=
  let n := c.toNat
  n == 9 || n == 10 || n == 11 || n == 12 || n == 13 || n == 32 ||
    n == 133 || n == 160 || n == 0x1680 || (0x2000 ≤ n && n ≤ 0x200A) ||
    n == 0x2028 || n == 0x2029 || n == 0x202F || n == 0x205F || n == 0x3000

/-- Model of `strings.TrimSpace` on the character list of a string. -/
def trimSpace (cs : List Char) : List Char :=
  ((cs.dropWhile goIsSpace).reverse.dropWhile goIsSpace).reverse

/-- Go's `len` of the UTF-8 encoding of a character list. -/
def utf8Len (cs : List Char) : Nat :=
  cs.foldl (fun n c => n + c.utf8Size) 0

/-- The `Item` struct of `api.go`. -/
structure Item where
  ShortDescription : String
  Price : String
deriving DecidableEq

/-- The `Receipt` struct of `api.go`. -/
structure Receipt where
  Retailer : String
  PurchaseDate : String
  PurchaseTime : String
  Items : List Item
  Total : String
deriving DecidableEq

/-- Rule 1 (`calculatePointsForRetailerName`): one point per ASCII
alphanumeric character of the retailer name. -/
def calculatePointsForRetailerName (s : String) : ℤ :=
  s.data.foldl
    (fun points c =>
      if ('a' ≤ c ∧ c ≤ 'z') ∨ ('A' ≤ c ∧ c ≤ 'Z') ∨ ('0' ≤ c ∧ c ≤ '9') then
        points + 1
      else points)
    0

/-- Rules 2 and 3 (`calcuatePointsForTotal`, keeping the source's
spelling): parse the total (zero value `0` on failure), add 50 if it is
almost equal to its own truncation, add 25 if its remainder modulo `0.25`
is almost zero. -/
def calcuatePointsForTotal (t : String) : ℤ :=
  let total := (parseFloat t).getD 0
  let points : ℤ := if almostEqual total (ratTrunc total : ℚ) then 50 else 0
  if almostEqual (fmod total (1 / 4)) 0 then points + 25 else points

/-- Rules 4 and 5 (`calculatePointsForItems`): 5 points per complete pair
of items, and for every item whose trimmed description has byte length a
multiple of 3, `ceil(price * 0.2)` points (price `0` if unparsable). -/
def calculatePointsForItems (items : List Item) : ℤ :=
  items.foldl
    (fun points item =>
      let description := trimSpace item.ShortDescription.data
      if utf8Len description % 3 = 0 then
        let price := (parseFloat item.Price).getD 0
        points + Int.ceil (price * (1 / 5 : ℚ))
      else points)
    ((items.length / 2 * 5 : ℕ) : ℤ)

/-- Rule 7 (`calculatePointsForPurchaseDate`): 6 points if the day of the
month is odd.  On a parse failure Go keeps the zero `time.Time`, whose
`Day()` is 1. -/
def calculatePointsForPurchaseDate (d : String) : ℤ :=
  let day := match parseDate d with
    | some date => date.day
    | none => 1
  if day % 2 = 1 then 6 else 0

/-- Rule 8 (`calculatePointsForPurchaseTime`): 10 points if the hour is
between 14 and 16 inclusive.  On a parse failure Go keeps the zero
`time.Time`, whose `Hour()` is 0. -/
def calculatePointsForPurchaseTime (t : String) : ℤ :=
  let hour := match parseTime t with
    | some tm => tm.hour
    | none => 0
  if 14 ≤ hour ∧ hour ≤ 16 then 10 else 0

/-- `calculatePoints`: the sum of the five rule functions. -/
def calculatePoints (receipt : Receipt) : ℤ :=
  calculatePointsForRetailerName receipt.Retailer +
    calcuatePointsForTotal receipt.Total +
    calculatePointsForItems receipt.Items +
    calculatePointsForPurchaseDate receipt.PurchaseDate +
    calculatePointsForPurchaseTime receipt.PurchaseTime

/-- The price-summing loop of `validateReceipt`: left-to-right sum of the
parsed item prices, failing on the first unparsable price. -/
def sumPricesAux : ℚ → List Item → Option ℚ
  | acc, [] => some acc
  | acc, item :: rest =>
    match parseFloat item.Price with
    | none => none
    | some price => sumPricesAux (acc + price) rest

/-- `validateReceipt`: date parses, time parses, total parses, every item
price parses, and the total is almost equal to the price sum.  The Go
function returns an `error`; all failure causes are collapsed by the
caller, so the model returns `true` for the `nil`-error case. -/
def validateReceipt (receipt : Receipt) : Bool :=
  match parseDate receipt.PurchaseDate with
  | none => false
  | some _ =>
    match parseTime receipt.PurchaseTime with
    | none => false
    | some _ =>
      match parseFloat receipt.Total with
      | none => false
      | some total =>
        match sumPricesAux 0 receipt.Items with
        | none => false
        | some sum => almostEqual total sum

/-- The receipt store: the `receipts` map of `api.go`. -/
abbrev Store := String → Option Receipt

/-- The initial, empty `receipts` map. -/
def emptyStore : Store := fun _ => none

/-- Result of the submit endpoint. -/
inductive ProcessResult
  | badRequest (description : String)
  | ok (id : String)
deriving DecidableEq

/-- Result of the points endpoint. -/
inductive GetPointsResult
  | notFound (description : String)
  | ok (points : ℤ)
deriving DecidableEq

/-- The `binding` struct tags checked by `ShouldBindJSON`: every string
field non-empty (`required`) and at least one item (`min=1`).  Item-level
tags are not applied to slice elements (no `dive` tag in the source). -/
def bindOk (receipt : Receipt) : Bool :=
  !(receipt.Retailer == "") && !(receipt.PurchaseDate == "") &&
    !(receipt.PurchaseTime == "") && !(receipt.Total == "") &&
    decide (1 ≤ receipt.Items.length)

/-- `processReceipt`: bind, validate, then store the receipt under the
freshly generated identifier (identifier generation is an injected
capability, passed here as `genId`) and return that identifier. -/
def processReceipt (genId : String) (store : Store) (receipt : Receipt) :
    ProcessResult × Store :=
  if bindOk receipt = false then
    (ProcessResult.badRequest "The receipt is invalid.", store)
  else if validateReceipt receipt = false then
    (ProcessResult.badRequest "The receipt is invalid.", store)
  else
    (ProcessResult.ok genId, fun k => if k = genId then some receipt else store k)

/-- `getReceiptPoints`: look the identifier up; unknown identifiers give
the not-found response, known ones the recomputed score. -/
def getReceiptPoints (store : Store) (receiptId : String) : GetPointsResult :=
  match store receiptId with
  | none => GetPointsResult.notFound "No receipt found for that ID."
  | some receipt => GetPointsResult.ok (calculatePoints receipt)

/-- A sequence of submit requests, each with its injected fresh
identifier; returns the final store and the identifiers issued by the
successful insertions, in order. -/
def runRequests : Store → List (String × Receipt) → Store × List String
  | store, [] => (store, [])
  | store, (genId, receipt) :: rest =>
    match processReceipt genId store receipt with
    | (ProcessResult.ok i, store1) =>
      let res := runRequests store1 rest
      (res.1, i :: res.2)
    | (ProcessResult.badRequest _, store1) => runRequests store1 rest

set_option maxRecDepth 8000

/-! ### Concrete receipts used by witnesses and counterexamples -/

/-- A receipt with an all-negative price that nevertheless passes
`validateReceipt` (the validator checks no signs). -/
def negReceipt : Receipt :=
  ⟨".", "2022-01-02", "13:01", [⟨"abc", "-1000.00"⟩], "-1000.00"⟩

/-- An ordinary well-formed receipt. -/
def okReceipt : Receipt :=
  ⟨"Target", "2022-01-01", "13:01", [⟨"abc", "5.00"⟩, ⟨"de", "30.35"⟩], "35.35"⟩

/-- A receipt whose prices sum exactly to its total but whose purchase
date does not parse. -/
def badDateReceipt : Receipt :=
  ⟨"a", "bad", "13:01", [⟨"d", "5.00"⟩], "5.00"⟩

/-! ### Helper lemmas -/

theorem almostEqual_iff (a b : ℚ) :
    almostEqual a b = true ↔ |a - b| ≤ 1 / 1000000000 := by
  simp [almostEqual]

theorem validateReceipt_parsed (r : Receipt) (d : GoDate) (tm : GoTime) (t s : ℚ)
    (hd : parseDate r.PurchaseDate = some d) (ht : parseTime r.PurchaseTime = some tm)
    (htot : parseFloat r.Total = some t) (hsum : sumPricesAux 0 r.Items = some s) :
    validateReceipt r = almostEqual t s := by
  simp [validateReceipt, hd, ht, htot, hsum]

theorem retailer_foldl_le (cs : List Char) (a : ℤ) :
    a ≤ cs.foldl
      (fun points c =>
        if ('a' ≤ c ∧ c ≤ 'z') ∨ ('A' ≤ c ∧ c ≤ 'Z') ∨ ('0' ≤ c ∧ c ≤ '9') then
          points + 1
        else points) a := by
  induction cs generalizing a with
  | nil => exact le_refl a
  | cons c rest ih =>
    refine le_trans ?_ (ih _)
    dsimp only
    split
    · omega
    · exact le_refl a

theorem calculatePointsForRetailerName_nonneg (s : String) :
    0 ≤ calculatePointsForRetailerName s :=
  retailer_foldl_le s.data 0

theorem calcuatePointsForTotal_cases (t : String) :
    calcuatePointsForTotal t = 0 ∨ calcuatePointsForTotal t = 25 ∨
      calcuatePointsForTotal t = 50 ∨ calcuatePointsForTotal t = 75 := by
  simp only [calcuatePointsForTotal]
  split <;> split <;> omega

theorem items_foldl_eq (l : List Item) (a : ℤ) :
    l.foldl
      (fun points item =>
        let description := trimSpace item.ShortDescription.data
        if utf8Len description % 3 = 0 then
          let price := (parseFloat item.Price).getD 0
          points + Int.ceil (price * (1 / 5 : ℚ))
        else points) a
    = a + (l.map
        (fun item =>
          if utf8Len (trimSpace item.ShortDescription.data) % 3 = 0 then
            Int.ceil (((parseFloat item.Price).getD 0) * (1 / 5 : ℚ))
          else 0)).sum := by
  induction l generalizing a with
  | nil => simp
  | cons item rest ih =>
    simp only [List.foldl_cons, List.map_cons, List.sum_cons]
    rw [ih]
    split <;> ring

theorem calculatePointsForItems_eq (items : List Item) :
    calculatePointsForItems items
      = ((items.length / 2 * 5 : ℕ) : ℤ) + (items.map
        (fun item =>
          if utf8Len (trimSpace item.ShortDescription.data) % 3 = 0 then
            Int.ceil (((parseFloat item.Price).getD 0) * (1 / 5 : ℚ))
          else 0)).sum :=
  items_foldl_eq items _

theorem calculatePointsForPurchaseDate_cases (d : String) :
    calculatePointsForPurchaseDate d = 0 ∨ calculatePointsForPurchaseDate d = 6 := by
  simp only [calculatePointsForPurchaseDate]
  split <;> omega

theorem calculatePointsForPurchaseTime_cases (t : String) :
    calculatePointsForPurchaseTime t = 0 ∨ calculatePointsForPurchaseTime t = 10 := by
  simp only [calculatePointsForPurchaseTime]
  split <;> omega

/-! ### Claims -/

/-- Claim C1, amended.  The original claim (score non-negative for every
receipt accepted by `validateReceipt`) is false: validation performs no
sign check, and a negative item price makes the description-length rule
subtract points (see the counterexample).  Amended: for every receipt
accepted by `validateReceipt` whose item prices all parse to
non-negative values, `calculatePoints` is non-negative. -/
theorem claim_C1_thm (r : Receipt) (_hv : validateReceipt r = true)
    (hprices : ∀ item ∈ r.Items, 0 ≤ ((parseFloat item.Price).getD 0 : ℚ)) :
    0 ≤ calculatePoints r := by
  have h1 := calculatePointsForRetailerName_nonneg r.Retailer
  have h2 := calcuatePointsForTotal_cases r.Total
  have h4 := calculatePointsForPurchaseDate_cases r.PurchaseDate
  have h5 := calculatePointsForPurchaseTime_cases r.PurchaseTime
  have h3 : 0 ≤ calculatePointsForItems r.Items := by
    rw [calculatePointsForItems_eq]
    have hpair : (0 : ℤ) ≤ ((r.Items.length / 2 * 5 : ℕ) : ℤ) := Int.ofNat_nonneg _
    have hsum : (0 : ℤ) ≤ (r.Items.map
        (fun item =>
          if utf8Len (trimSpace item.ShortDescription.data) % 3 = 0 then
            Int.ceil (((parseFloat item.Price).getD 0) * (1 / 5 : ℚ))
          else 0)).sum := by
      refine List.sum_nonneg ?_
      intro x hx
      rcases List.mem_map.1 hx with ⟨item, hitem, rfl⟩
      split
      · exact Int.ceil_nonneg (mul_nonneg (hprices item hitem) (by norm_num))
      · exact le_refl 0
    omega
  unfold calculatePoints
  omega

/-- Claim C1, counterexample.  `negReceipt` (single item with price
`"-1000.00"`, total `"-1000.00"`) binds and validates, yet scores
`-125 < 0`: the total rules contribute 75 and the description-length
rule contributes `ceil(-1000 * 0.2) = -200`. -/
theorem claim_C1_counterexample :
    bindOk negReceipt = true ∧ validateReceipt negReceipt = true ∧
      calculatePoints negReceipt = -125 := by
  with_unfolding_all decide

/-- Claim C1, witness: the amended theorem applied to a concrete
validated receipt with non-negative prices. -/
theorem claim_C1_witness :
    validateReceipt okReceipt = true ∧
      (∀ item ∈ okReceipt.Items, 0 ≤ ((parseFloat item.Price).getD 0 : ℚ)) ∧
      0 ≤ calculatePoints okReceipt :=
  ⟨by with_unfolding_all decide, by with_unfolding_all decide,
    claim_C1_thm okReceipt (by with_unfolding_all decide) (by with_unfolding_all decide)⟩

/-- Claim C2, amended.  The original claim (a sub-rule seeing unparsable
data contributes exactly 0) is false for the total and date rules: the
Go code discards the parse error and scores the zero value of the type.
Amended: an unparsable total is scored as `0.00` and contributes 75
(both total rules fire), an unparsable purchase date is scored as the
zero time (day 1, odd) and contributes 6, an unparsable purchase time is
scored as hour 0 and contributes 0, and an item with an unparsable price
is scored as price `0.00`, so its description-length contribution is 0. -/
theorem claim_C2_thm :
    (∀ t, parseFloat t = none → calcuatePointsForTotal t = 75) ∧
    (∀ d, parseDate d = none → calculatePointsForPurchaseDate d = 6) ∧
    (∀ s, parseTime s = none → calculatePointsForPurchaseTime s = 0) ∧
    (∀ desc price : String, parseFloat price = none →
      calculatePointsForItems [⟨desc, price⟩] = 0) := by
  refine ⟨?_, ?_, ?_, ?_⟩
  · intro t h
    simp only [calcuatePointsForTotal, h, Option.getD_none]
    norm_num [ratTrunc, fmod, almostEqual]
  · intro d h
    simp [calculatePointsForPurchaseDate, h]
  · intro s h
    simp [calculatePointsForPurchaseTime, h]
  · intro desc price h
    simp only [calculatePointsForItems, List.foldl_cons, List.foldl_nil, h,
      Option.getD_none, List.length_cons, List.length_nil]
    norm_num

/-- Claim C2, counterexample: an unparsable total contributes 75, not 0,
and an unparsable (out-of-range) purchase date contributes 6, not 0. -/
theorem claim_C2_counterexample :
    parseFloat "abc" = none ∧ calcuatePointsForTotal "abc" = 75 ∧
      parseDate "2022-13-40" = none ∧ calculatePointsForPurchaseDate "2022-13-40" = 6 := by
  with_unfolding_all decide

/-- Claim C2, witness: the amended theorem applied to a concrete
unparsable string. -/
theorem claim_C2_witness :
    calcuatePointsForTotal "oops" = 75 ∧ calculatePointsForPurchaseDate "oops" = 6 ∧
      calculatePointsForPurchaseTime "oops" = 0 ∧
      calculatePointsForItems [⟨"abc", "oops"⟩] = 0 :=
  ⟨claim_C2_thm.1 "oops" (by with_unfolding_all decide),
    claim_C2_thm.2.1 "oops" (by with_unfolding_all decide),
    claim_C2_thm.2.2.1 "oops" (by with_unfolding_all decide),
    claim_C2_thm.2.2.2 "abc" "oops" (by with_unfolding_all decide)⟩

/-- Claim C4, confirmed: for every purchase time that parses, the
afternoon rule contributes 10 exactly when the hour is in `[14, 16]`,
and `"14:33"`, `"13:59"`, `"16:59"` contribute 10, 0, 10. -/
theorem claim_C4_thm :
    (∀ s tm, parseTime s = some tm →
      calculatePointsForPurchaseTime s = if 14 ≤ tm.hour ∧ tm.hour ≤ 16 then 10 else 0) ∧
    calculatePointsForPurchaseTime "14:33" = 10 ∧
    calculatePointsForPurchaseTime "13:59" = 0 ∧
    calculatePointsForPurchaseTime "16:59" = 10 := by
  refine ⟨?_, by with_unfolding_all decide, by with_unfolding_all decide,
    by with_unfolding_all decide⟩
  intro s tm h
  simp [calculatePointsForPurchaseTime, h]

/-- Claim C4, witness: the rule evaluated through the theorem at
`"15:00"`. -/
theorem claim_C4_witness :
    parseTime "15:00" = some ⟨15, 0⟩ ∧
      calculatePointsForPurchaseTime "15:00"
        = if 14 ≤ (GoTime.mk 15 0).hour ∧ (GoTime.mk 15 0).hour ≤ 16 then 10 else 0 :=
  ⟨by with_unfolding_all decide,
    claim_C4_thm.1 "15:00" ⟨15, 0⟩ (by with_unfolding_all decide)⟩

/-- Claim C5, confirmed: for every total that parses to `v`, the total
rules contribute 50 exactly when `v` is within `1e-9` of its own
truncation plus 25 exactly when `v mod 0.25` is within `1e-9` of zero;
`"9.00"` gets 75 and `"9.10"` gets 0. -/
theorem claim_C5_thm :
    (∀ t v, parseFloat t = some v →
      calcuatePointsForTotal t =
        (if |v - (ratTrunc v : ℚ)| ≤ 1 / 1000000000 then 50 else 0) +
          (if |fmod v (1 / 4)| ≤ 1 / 1000000000 then 25 else 0)) ∧
    calcuatePointsForTotal "9.00" = 75 ∧ calcuatePointsForTotal "9.10" = 0 := by
  refine ⟨?_, by with_unfolding_all decide, by with_unfolding_all decide⟩
  intro t v h
  simp only [calcuatePointsForTotal, h, Option.getD_some, almostEqual, sub_zero,
    decide_eq_true_eq]
  split <;> split <;> omega

/-- Claim C5, witness: the rule evaluated through the theorem at
`"35.35"`, which parses to `707/20`. -/
theorem claim_C5_witness :
    parseFloat "35.35" = some (707 / 20) ∧
      calcuatePointsForTotal "35.35" =
        (if |(707 / 20 : ℚ) - (ratTrunc (707 / 20) : ℚ)| ≤ 1 / 1000000000 then 50 else 0) +
          (if |fmod (707 / 20) (1 / 4)| ≤ 1 / 1000000000 then 25 else 0) :=
  ⟨by with_unfolding_all decide,
    claim_C5_thm.1 "35.35" (707 / 20) (by with_unfolding_all decide)⟩

/-- Claim C6, confirmed: the item rules decompose into the pair rule
plus, per item, `ceil(price * 0.2)` when the trimmed description length
is a multiple of 3 and 0 otherwise. -/
theorem claim_C6_thm (items : List Item) :
    calculatePointsForItems items
      = ((items.length / 2 * 5 : ℕ) : ℤ) + (items.map
        (fun item =>
          if utf8Len (trimSpace item.ShortDescription.data) % 3 = 0 then
            Int.ceil (((parseFloat item.Price).getD 0) * (1 / 5 : ℚ))
          else 0)).sum :=
  items_foldl_eq items _

/-- Claim C3, amended.  The original claim ("for every receipt whose
total is within 1e-9 of the item-price sum, `validateReceipt` succeeds")
is false: validation also requires the purchase date and time to parse
(see the counterexample).  Amended: when date and time parse and the
total and all item prices parse, `validateReceipt` succeeds exactly when
the absolute difference is at most `1e-9`; and whenever the total and
prices parse with a difference above `1e-9`, validation fails
unconditionally. -/
theorem claim_C3_thm :
    (∀ (r : Receipt) (t s : ℚ), parseDate r.PurchaseDate ≠ none →
      parseTime r.PurchaseTime ≠ none → parseFloat r.Total = some t →
      sumPricesAux 0 r.Items = some s →
      (validateReceipt r = true ↔ |t - s| ≤ 1 / 1000000000)) ∧
    (∀ (r : Receipt) (t s : ℚ), parseFloat r.Total = some t →
      sumPricesAux 0 r.Items = some s → ¬(|t - s| ≤ 1 / 1000000000) →
      validateReceipt r = false) := by
  constructor
  · intro r t s hd ht htot hsum
    rcases hdd : parseDate r.PurchaseDate with _ | d
    · exact absurd hdd hd
    rcases htt : parseTime r.PurchaseTime with _ | tm
    · exact absurd htt ht
    rw [validateReceipt_parsed r d tm t s hdd htt htot hsum, almostEqual_iff]
  · intro r t s htot hsum hfar
    rcases hdd : parseDate r.PurchaseDate with _ | d
    · simp [validateReceipt, hdd]
    rcases htt : parseTime r.PurchaseTime with _ | tm
    · simp [validateReceipt, hdd, htt]
    rw [validateReceipt_parsed r d tm t s hdd htt htot hsum]
    simp only [almostEqual]
    exact decide_eq_false hfar

/-- Claim C3, counterexample: `badDateReceipt` has total `"5.00"` and a
single item of price `"5.00"` (difference 0), yet fails validation
because its purchase date `"bad"` does not parse. -/
theorem claim_C3_counterexample :
    parseFloat badDateReceipt.Total = some 5 ∧
      sumPricesAux 0 badDateReceipt.Items = some 5 ∧
      |(5 : ℚ) - 5| ≤ 1 / 1000000000 ∧
      validateReceipt badDateReceipt = false := by
  with_unfolding_all decide

/-- Claim C3, witness: the amended equivalence applied to a concrete
fully-parsable receipt. -/
theorem claim_C3_witness :
    validateReceipt okReceipt = true :=
  ((claim_C3_thm.1 okReceipt (707 / 20) (707 / 20)
      (by with_unfolding_all decide) (by with_unfolding_all decide)
      (by with_unfolding_all decide) (by with_unfolding_all decide)).2
    (by norm_num))

/-- Claim C10, confirmed: `validateReceipt` performs no sign check.
Whenever the date and time parse, the total and all item prices parse
as floats and the total is within `1e-9` of the price sum, validation
succeeds; no hypothesis restricts the sign of any amount, and the
witness exercises this with an all-negative receipt. -/
theorem claim_C10_thm (r : Receipt) (t s : ℚ)
    (hd : parseDate r.PurchaseDate ≠ none) (ht : parseTime r.PurchaseTime ≠ none)
    (htot : parseFloat r.Total = some t) (hsum : sumPricesAux 0 r.Items = some s)
    (hclose : |t - s| ≤ 1 / 1000000000) : validateReceipt r = true := by
  rcases hdd : parseDate r.PurchaseDate with _ | d
  · exact absurd hdd hd
  rcases htt : parseTime r.PurchaseTime with _ | tm
  · exact absurd htt ht
  rw [validateReceipt_parsed r d tm t s hdd htt htot hsum, almostEqual_iff]
  exact hclose

/-- Claim C10, witness: the theorem applied to `negReceipt`, whose only
price and whose total are both the negative amount `"-1000.00"`. -/
theorem claim_C10_witness :
    parseFloat negReceipt.Total = some (-1000) ∧
      sumPricesAux 0 negReceipt.Items = some (-1000) ∧
      validateReceipt negReceipt = true :=
  ⟨by with_unfolding_all decide, by with_unfolding_all decide,
    claim_C10_thm negReceipt (-1000) (-1000)
      (by with_unfolding_all decide) (by with_unfolding_all decide)
      (by with_unfolding_all decide) (by with_unfolding_all decide)
      (by norm_num)⟩

/-- The two possible outcomes of `processReceipt`: rejection leaving the
store unchanged, or acceptance storing the receipt under the generated
identifier. -/
theorem processReceipt_cases (genId : String) (store : Store) (r : Receipt) :
    processReceipt genId store r = (ProcessResult.badRequest "The receipt is invalid.", store) ∨
      processReceipt genId store r
        = (ProcessResult.ok genId, fun k => if k = genId then some r else store k) := by
  unfold processReceipt
  split
  · exact Or.inl rfl
  · split
    · exact Or.inl rfl
    · exact Or.inr rfl

/-- Claim C8, confirmed: when `processReceipt` accepts a receipt and
returns an identifier, looking that identifier up in the resulting store
yields a receipt whose five fields all equal those of the submitted
receipt. -/
theorem claim_C8_thm (genId : String) (store : Store) (r : Receipt) (i : String)
    (store2 : Store) (h : processReceipt genId store r = (ProcessResult.ok i, store2)) :
    store2 i = some r ∧
      ∀ r2, store2 i = some r2 →
        r2.Retailer = r.Retailer ∧ r2.PurchaseDate = r.PurchaseDate ∧
          r2.PurchaseTime = r.PurchaseTime ∧ r2.Items = r.Items ∧ r2.Total = r.Total := by
  rcases processReceipt_cases genId store r with hc | hc
  · rw [h] at hc
    simp at hc
  · rw [h] at hc
    obtain ⟨hi, hs⟩ := Prod.mk.injEq .. ▸ hc
    obtain rfl : i = genId := by
      cases hi
      rfl
    have hlook : store2 i = some r := by
      rw [hs]
      simp
    refine ⟨hlook, ?_⟩
    intro r2 h2
    rw [hlook] at h2
    cases h2
    exact ⟨rfl, rfl, rfl, rfl, rfl⟩

/-- The store produced by inserting `okReceipt` under `"id1"`. -/
def okStore : Store := fun k => if k = "id1" then some okReceipt else emptyStore k

/-- Claim C8, witness: the theorem applied to a concrete accepted
insertion. -/
theorem claim_C8_witness :
    okStore "id1" = some okReceipt :=
  (claim_C8_thm "id1" emptyStore okReceipt "id1" okStore
    (by with_unfolding_all rfl)).1

/-- Identifiers absent from the issued list and from the starting store
stay absent from the final store. -/
theorem runRequests_lookup_none (ops : List (String × Receipt)) (store : Store)
    (i : String) (h0 : store i = none) (hmem : i ∉ (runRequests store ops).2) :
    (runRequests store ops).1 i = none := by
  induction ops generalizing store with
  | nil => exact h0
  | cons op rest ih =>
    obtain ⟨genId, r⟩ := op
    rcases processReceipt_cases genId store r with hc | hc <;>
      simp only [runRequests, hc] at hmem ⊢
    · exact ih store h0 hmem
    · rw [List.mem_cons] at hmem
      push_neg at hmem
      refine ih _ ?_ hmem.2
      simp only [if_neg hmem.1, h0]

/-- Claim C9, confirmed: after any sequence of submissions starting from
the empty store, querying an identifier that no successful insertion
issued yields the not-found response with the exact description, and
never a points value. -/
theorem claim_C9_thm (ops : List (String × Receipt)) (i : String)
    (h : i ∉ (runRequests emptyStore ops).2) :
    getReceiptPoints (runRequests emptyStore ops).1 i
        = GetPointsResult.notFound "No receipt found for that ID." ∧
      ∀ p, getReceiptPoints (runRequests emptyStore ops).1 i ≠ GetPointsResult.ok p := by
  have hnone := runRequests_lookup_none ops emptyStore i rfl h
  constructor
  · simp [getReceiptPoints, hnone]
  · intro p
    simp [getReceiptPoints, hnone]

/-- Claim C9, witness: the theorem applied to the empty request
sequence and a fresh identifier. -/
theorem claim_C9_witness :
    getReceiptPoints (runRequests emptyStore []).1 "x"
      = GetPointsResult.notFound "No receipt found for that ID." :=
  (claim_C9_thm [] "x" (by simp [runRequests])).1



theorem charVal_bounds (c : Char) (h : c.isDigit = true) :
    48 ≤ c.toNat ∧ c.toNat ≤ 57 := by
  simp only [Char.isDigit, Bool.and_eq_true, decide_eq_true_eq] at h
  obtain ⟨hlo, hhi⟩ := h
  exact ⟨UInt32.le_toNat_of_le (by decide) hlo, UInt32.toNat_le_of_le (by decide) hhi⟩

/-- Modelled from the spec: the exact `HH:MM` time format the
specification describes - two digit characters, a colon, two digit
characters, with the hour at most 23 and the minute at most 59. -/
def specTimeFormat (s : String) : Prop :=
  ∃ h1 h2 m1 m2 : Char,
    s.data = [h1, h2, ':', m1, m2] ∧
    (h1.isDigit && h2.isDigit && m1.isDigit && m2.isDigit) = true ∧
    10 * charVal h1 + charVal h2 ≤ 23 ∧ 10 * charVal m1 + charVal m2 ≤ 59

/-- The strings `time.Parse "15:04"` actually accepts: exact `HH:MM`,
or the one-digit-hour variant `H:MM`. -/
def goTimeFormat (s : String) : Prop :=
  specTimeFormat s ∨
    ∃ h1 m1 m2 : Char,
      s.data = [h1, ':', m1, m2] ∧
      (h1.isDigit && m1.isDigit && m2.isDigit) = true ∧
      10 * charVal m1 + charVal m2 ≤ 59

/-- The time parser succeeds exactly on `HH:MM` or `H:MM` with
in-range fields. -/
theorem parseTime_iff (s : String) :
    (parseTime s).isSome = true ↔ goTimeFormat s := by
  constructor
  · intro h
    rcases hp : parseTime s with _ | tm
    · rw [hp] at h
      simp at h
    unfold parseTime parseTimeChars at hp
    split at hp
    · rename_i h1 c m1 m2 heq
      split at hp
      · rename_i hcond
        dsimp only at hp
        split at hp
        · rename_i hrange
          simp only [Bool.and_eq_true, beq_iff_eq] at hcond
          obtain ⟨⟨⟨hd1, hc⟩, hd2⟩, hd3⟩ := hcond
          subst hc
          right
          exact ⟨h1, m1, m2, heq, by simp [hd1, hd2, hd3], hrange.2⟩
        · cases hp
      · cases hp
    · rename_i h1 h2 c m1 m2 heq
      split at hp
      · rename_i hcond
        dsimp only at hp
        split at hp
        · rename_i hrange
          simp only [Bool.and_eq_true, beq_iff_eq] at hcond
          obtain ⟨⟨⟨⟨hd1, hd2⟩, hc⟩, hd3⟩, hd4⟩ := hcond
          subst hc
          left
          exact ⟨h1, h2, m1, m2, heq, by simp [hd1, hd2, hd3, hd4],
            hrange.1, hrange.2⟩
        · cases hp
      · cases hp
    · cases hp
  · intro h
    rcases h with ⟨h1, h2, m1, m2, heq, hdig, hh, hm⟩ | ⟨h1, m1, m2, heq, hdig, hm⟩
    · simp only [Bool.and_eq_true] at hdig
      obtain ⟨⟨⟨hd1, hd2⟩, hd3⟩, hd4⟩ := hdig
      simp only [parseTime, heq, parseTimeChars, hd1, hd2, hd3, hd4]
      simp [hh, hm]
    · simp only [Bool.and_eq_true] at hdig
      obtain ⟨⟨hd1, hd3⟩, hd4⟩ := hdig
      have hb := charVal_bounds h1 hd1
      have hh : charVal h1 ≤ 23 := by
        unfold charVal
        omega
      simp only [parseTime, heq, parseTimeChars, hd1, hd3, hd4]
      simp [hh, hm]

/-- Modelled from the spec: the exact `YYYY-MM-DD` date format - four
digits, dash, two digits, dash, two digits, with month 1..12 and day
1..days-in-month. -/
def specDateFormat (s : String) : Prop :=
  ∃ y1 y2 y3 y4 m1 m2 d1 d2 : Char,
    s.data = [y1, y2, y3, y4, '-', m1, m2, '-', d1, d2] ∧
    (y1.isDigit && y2.isDigit && y3.isDigit && y4.isDigit &&
      m1.isDigit && m2.isDigit && d1.isDigit && d2.isDigit) = true ∧
    1 ≤ 10 * charVal m1 + charVal m2 ∧ 10 * charVal m1 + charVal m2 ≤ 12 ∧
    1 ≤ 10 * charVal d1 + charVal d2 ∧
    10 * charVal d1 + charVal d2 ≤
      daysIn (1000 * charVal y1 + 100 * charVal y2 + 10 * charVal y3 + charVal y4)
        (10 * charVal m1 + charVal m2)

/-- The date parser succeeds exactly on the `YYYY-MM-DD` format with
in-range month and day. -/
theorem parseDate_iff (s : String) :
    (parseDate s).isSome = true ↔ specDateFormat s := by
  constructor
  · intro h
    rcases hp : parseDate s with _ | d
    · rw [hp] at h
      simp at h
    unfold parseDate parseDateChars at hp
    split at hp
    · rename_i y1 y2 y3 y4 c1 m1 m2 c2 d1 d2 heq
      split at hp
      · rename_i hcond
        dsimp only at hp
        split at hp
        · rename_i hrange
          simp only [Bool.and_eq_true, beq_iff_eq] at hcond
          obtain ⟨⟨⟨⟨⟨⟨⟨⟨⟨hy1, hy2⟩, hy3⟩, hy4⟩, hc1⟩, hm1⟩, hm2⟩, hc2⟩, hd1⟩, hd2⟩ := hcond
          subst hc1
          subst hc2
          exact ⟨y1, y2, y3, y4, m1, m2, d1, d2, heq,
            by simp [hy1, hy2, hy3, hy4, hm1, hm2, hd1, hd2],
            hrange.1, hrange.2.1, hrange.2.2.1, hrange.2.2.2⟩
        · cases hp
      · cases hp
    · cases hp
  · rintro ⟨y1, y2, y3, y4, m1, m2, d1, d2, heq, hdig, hr1, hr2, hr3, hr4⟩
    simp only [Bool.and_eq_true] at hdig
    obtain ⟨⟨⟨⟨⟨⟨⟨hy1, hy2⟩, hy3⟩, hy4⟩, hm1⟩, hm2⟩, hd1⟩, hd2⟩ := hdig
    simp only [parseDate, heq, parseDateChars, hy1, hy2, hy3, hy4, hm1, hm2, hd1, hd2]
    simp [hr1, hr2, hr3, hr4]

/-- Claim C7, amended.  The original claim (both parsers succeed
exactly on `YYYY-MM-DD` resp. `HH:MM` and fail on any deviation) is
false for the time parser, which also accepts one-digit hours such as
`"9:30"` (see the counterexample).  Amended: the date parser succeeds
exactly on in-range `YYYY-MM-DD`, and the time parser succeeds exactly
on in-range `HH:MM` or `H:MM`, failing on every other deviation. -/
theorem claim_C7_thm :
    (∀ s : String, (parseDate s).isSome = true ↔ specDateFormat s) ∧
    (∀ s : String, (parseTime s).isSome = true ↔ goTimeFormat s) :=
  ⟨parseDate_iff, parseTime_iff⟩

/-- Claim C7, counterexample: `"9:30"` deviates from the exact `HH:MM`
format yet parses successfully. -/
theorem claim_C7_counterexample :
    parseTime "9:30" = some ⟨9, 30⟩ ∧ ¬ specTimeFormat "9:30" := by
  refine ⟨by with_unfolding_all decide, ?_⟩
  rintro ⟨h1, h2, m1, m2, heq, -⟩
  have hlen : ("9:30".data).length = 4 := rfl
  rw [heq] at hlen
  simp at hlen

